import Mathlib

/-!
Shallow embedding of the `ai-config-manager` (ACM) active-configuration
propagation engine, translated from `src/lib/config.ts` (ConfigManager) and
`src/lib/commands.ts` (Commands.determineKeyType).

Modelling conventions:
* JavaScript strings are modelled as `List Char` (`Str`).
* JavaScript values that may be `undefined` (e.g. fields produced by array
  destructuring past the end of the array) are modelled as `Option Str`,
  with `none` playing the role of `undefined`.
* The file system is passed explicitly: each file's content is a parameter
  and the new content is returned.  A file that may be absent is an
  `Option` of its content.
* Throwing code is modelled with `Except`/`Option` results.
-/

namespace ACM

/-- A JavaScript string, modelled as its list of characters. -/
abbrev Str := List Char

/-- Shorthand turning a Lean string literal into a `Str`. -/
def str (s : String) : Str := s.toList

/-- JavaScript truthiness of a possibly-undefined string:
`undefined` and the empty string are falsy. -/
def jsTruthy (x : Option Str) : Bool :=
  match x with
  | none => false
  | some s => !s.isEmpty

/-- JavaScript `x || d` for a possibly-undefined string `x`:
yields `d` when `x` is `undefined` or empty. -/
def jsOr (x : Option Str) (d : Str) : Str :=
  match x with
  | none => d
  | some s => if s.isEmpty then d else s

/-- JavaScript string interpolation `${x}` of a possibly-undefined value:
`undefined` prints as the literal string "undefined". -/
def jsStr (x : Option Str) : Str :=
  match x with
  | none => str "undefined"
  | some s => s

/- ### JavaScript `String.prototype.split` with a single-character separator -/

/-- JS `s.split(sep)` for a one-character separator: always returns at least
one chunk, keeps empty chunks (including trailing ones). -/
def splitOnChar (sep : Char) : Str → List Str
  | [] => [[]]
  | c :: rest =>
    if c = sep then [] :: splitOnChar sep rest
    else
      match splitOnChar sep rest with
      | [] => [[c]]
      | p :: ps => (c :: p) :: ps

/- ### CredentialTypeResolver (`Commands.determineKeyType`) -/

/-- The fixed allow-list of base URLs mapped to `TOKEN`
(`tokenUrls` in `Commands.determineKeyType`). -/
def tokenUrls : List Str :=
  [str "https://code.wenwen-ai.com", str "https://api.aicodewith.com"]

/-- The fixed allow-list of base URLs mapped to `KEY`
(`keyUrls` in `Commands.determineKeyType`). -/
def keyUrls : List Str :=
  [str "https://api.aicodemirror.com/api/claudecode", str "https://gaccode.com/claudecode"]

/-- Models `Commands.determineKeyType(url, manualType?)`: an explicit override is
case-normalized and honoured when it is one of key/k/token/t; otherwise the
two URL allow-lists are consulted, defaulting to `TOKEN`. -/
def determineKeyType (url : Str) (manualType : Option Str) : Str :=
  let fromOverride : Option Str :=
    if jsTruthy manualType then
      let normalizedType := (jsStr manualType).map Char.toLower
      if normalizedType ∈ [str "key", str "k"] then some (str "KEY")
      else if normalizedType ∈ [str "token", str "t"] then some (str "TOKEN")
      else none
    else none
  match fromOverride with
  | some k => k
  | none =>
    if url ∈ tokenUrls then str "TOKEN"
    else if url ∈ keyUrls then str "KEY"
    else str "TOKEN"

/- ### Profile records (the `Config` type of `src/types`) -/

/-- A parsed profile record.  Fields produced by destructuring a split line
may be `undefined` (`none`); the `type` field is never `undefined` because the
parser applies `|| 'TOKEN'` to it. -/
structure Config where
  alias_ : Option Str
  name : Option Str
  token : Option Str
  url : Option Str
  type : Str
  deriving Repr, DecidableEq

/-- JS `line.trim()` used as a truthiness filter in `getAllConfigs`: a line is
kept iff it contains a non-whitespace character. -/
def nonBlank (line : Str) : Bool := line.any (fun c => !c.isWhitespace)

/-- One line of the profile-list file, parsed as in
`ConfigManager.getAllConfigs`: split on the pipe character, destructure the
first four parts (missing parts are `undefined`), and apply `|| 'TOKEN'` to
the fifth. -/
def parseLine (line : Str) : Config :=
  let parts := splitOnChar '|' line
  { alias_ := parts.get? 0
    name := parts.get? 1
    token := parts.get? 2
    url := parts.get? 3
    type := jsOr (parts.get? 4) (str "TOKEN") }

/-- Models `ConfigManager.getAllConfigs`, as a function of the profile-list file
content: split into lines, drop blank lines, parse each remaining line. -/
def getAllConfigs (configFile : Str) : List Config :=
  ((splitOnChar '\n' configFile).filter nonBlank).map parseLine

/-- Models `ConfigManager.getConfig`. -/
def getConfig (alias_ : Str) (configFile : Str) : Option Config :=
  (getAllConfigs configFile).find? (fun c => c.alias_ == some alias_)

/-- The two error kinds thrown by the profile store. -/
inductive CfgError where
  | duplicateAlias (a : Str)
  | unknownAlias (a : Str)
  deriving Repr, DecidableEq

/-- Models `ConfigManager.addConfig`: throws `duplicateAlias` when the alias is
already present; otherwise appends a newline plus the new record line to the
profile-list file and returns the new file content. -/
def addConfig (alias_ name token url : Str) (keyType : Option Str) (configFile : Str) :
    Except CfgError Str :=
  let configs := getAllConfigs configFile
  if (configs.find? (fun c => c.alias_ == some alias_)).isSome then
    .error (.duplicateAlias alias_)
  else
    let newConfig := alias_ ++ str "|" ++ name ++ str "|" ++ token ++ str "|" ++ url
      ++ str "|" ++ jsOr keyType (str "TOKEN")
    .ok (configFile ++ str "\n" ++ newConfig)

/-- The record line template used by `removeConfig` and `setCurrentConfig`
(an `undefined` field prints as the string "undefined"). -/
def serializeConfig (c : Config) : Str :=
  jsStr c.alias_ ++ str "|" ++ jsStr c.name ++ str "|" ++ jsStr c.token ++ str "|"
    ++ jsStr c.url ++ str "|" ++ jsOr (some c.type) (str "TOKEN")

/- ### The Claude settings JSON document -/

/-- A JSON value, as produced by `JSON.parse`.  Object fields keep insertion
order, matching JavaScript object semantics and `JSON.stringify`. -/
inductive Json where
  | null
  | bool (b : Bool)
  | num (n : Int)
  | str (s : Str)
  | arr (elems : List Json)
  | obj (fields : List (Str × Json))

/-- Property read on a JS object field list. -/
def lookupField (fs : List (Str × Json)) (k : Str) : Option Json :=
  match fs with
  | [] => none
  | (k', v) :: rest => if k' = k then some v else lookupField rest k

/-- Property write on a JS object field list: overwrites the existing key in
place, or appends a new key at the end (JS insertion order). -/
def setField (fs : List (Str × Json)) (k : Str) (v : Json) : List (Str × Json) :=
  match fs with
  | [] => [(k, v)]
  | (k', v') :: rest => if k' = k then (k, v) :: rest else (k', v') :: setField rest k v

/-- The default document synthesized by `ConfigManager.readClaudeSettings`
when the settings file is absent or unparseable. -/
def defaultSettings : Json :=
  .obj
    [(str "env",
      .obj
        [(str "ANTHROPIC_AUTH_TOKEN", .str []),
         (str "ANTHROPIC_BASE_URL", .str []),
         (str "CLAUDE_CODE_MAX_OUTPUT_TOKENS", .str (str "32000")),
         (str "CLAUDE_CODE_DISABLE_NONESSENTIAL_TRAFFIC", .num 1)]),
     (str "permissions",
      .obj [(str "allow", .arr []), (str "deny", .arr [])])]

/-- Models `ConfigManager.readClaudeSettings`: the parsed settings file if it exists
and parses (`some j`), else the default document. -/
def readClaudeSettings (settingsFile : Option Json) : Json :=
  settingsFile.getD defaultSettings

/-- Models `ConfigManager.updateClaudeSettings` up to (but not including) the final
file write: set `env.ANTHROPIC_AUTH_TOKEN` then `env.ANTHROPIC_BASE_URL` on
the document returned by `readClaudeSettings`.  `none` models the `TypeError`
thrown when `settings.env` is not usable as an object (the document is not an
object, or has no `env` key, or `env` is a primitive); a property write on an
array `env` is dropped again by `JSON.stringify`, leaving the document
unchanged. -/
def updateClaudeSettings (token url : Str) (settingsFile : Option Json) : Option Json :=
  let settings := readClaudeSettings settingsFile
  match settings with
  | .obj fs =>
    match lookupField fs (str "env") with
    | some (.obj efs) =>
      some (.obj (setField fs (str "env")
        (.obj (setField (setField efs (str "ANTHROPIC_AUTH_TOKEN") (.str token))
          (str "ANTHROPIC_BASE_URL") (.str url)))))
    | some (.arr _) => some settings
    | _ => none
  | _ => none

/- ### Shell startup-file editing -/

/-- JS `content.indexOf(pat)`, as an `Option Nat` (`none` is -1). -/
def idxOf? (pat : Str) : Str → Option Nat
  | [] => if pat.isPrefixOf ([] : Str) then some 0 else none
  | c :: rest =>
    if pat.isPrefixOf (c :: rest) then some 0
    else (idxOf? pat rest).map (· + 1)

/-- The sentinel begin marker of the managed block. -/
def envVarStart : Str := str "# Claude Code Environment Variables"

/-- The sentinel end marker of the managed block. -/
def envVarEnd : Str := str "# End Claude Code Environment Variables"

/-- The append-branch preparation step: terminate an unterminated non-empty
last line with a newline (JS: `if (content && !content.endsWith('\n'))`). -/
def padContent (content : Str) : Str :=
  if content.isEmpty then content
  else if content.getLast? = some '\n' then content
  else content ++ ['\n']

/-- The common splice step of `updateUnixShellConfig` and
`updateWindowsPowerShellConfig`: replace the region between the first
occurrence of each sentinel marker with the new block, or append the block
(preceded by a blank separator line, after terminating an unterminated last
line) when either marker is missing. -/
def spliceEnvBlock (newEnvVars : Str) (content : Str) : Str :=
  match idxOf? envVarStart content, idxOf? envVarEnd content with
  | some startIndex, some endIndex =>
    content.take startIndex ++ newEnvVars ++ content.drop (endIndex + envVarEnd.length)
  | _, _ => padContent content ++ str "\n" ++ newEnvVars ++ str "\n"

/-- The template of the managed block: begin marker, the two assignment
lines, end marker, joined by newlines. -/
def sentinelBlock (line1 line2 : Str) : Str :=
  envVarStart ++ str "\n" ++ line1 ++ str "\n" ++ line2 ++ str "\n" ++ envVarEnd

/-- The block written by `updateUnixShellConfig` (export syntax). -/
def unixEnvBlock (config : Config) : Str :=
  let envVar := if config.type = str "KEY" then str "ANTHROPIC_API_KEY"
    else str "ANTHROPIC_AUTH_TOKEN"
  sentinelBlock
    (str "export ANTHROPIC_BASE_URL=\x22" ++ jsStr config.url ++ str "\x22")
    (str "export " ++ envVar ++ str "=\x22" ++ jsStr config.token ++ str "\x22")

/-- The block written by `updateWindowsPowerShellConfig` ($env: syntax). -/
def psEnvBlock (config : Config) : Str :=
  let envVar := if config.type = str "KEY" then str "ANTHROPIC_API_KEY"
    else str "ANTHROPIC_AUTH_TOKEN"
  sentinelBlock
    (str "$env:ANTHROPIC_BASE_URL = \x22" ++ jsStr config.url ++ str "\x22")
    (str "$env:" ++ envVar ++ str " = \x22" ++ jsStr config.token ++ str "\x22")

/-- Models `ConfigManager.updateUnixShellConfig` as a function of the startup-file
content. -/
def updateUnixShellConfig (config : Config) (content : Str) : Str :=
  spliceEnvBlock (unixEnvBlock config) content

/-- Models `ConfigManager.updateWindowsPowerShellConfig` as a function of the
startup-file content. -/
def updateWindowsPowerShellConfig (config : Config) (content : Str) : Str :=
  spliceEnvBlock (psEnvBlock config) content

/- ### Process environment and whole-manager state -/

/-- The in-process environment variables this system reads and writes.
`none` is an unset variable. -/
structure Env where
  ANTHROPIC_AUTH_TOKEN : Option Str
  ANTHROPIC_API_KEY : Option Str
  ANTHROPIC_BASE_URL : Option Str
  deriving Repr, DecidableEq

/-- Models `ConfigManager.setCurrentSessionEnvironmentVariables`: clear both
credential variables, set the kind-appropriate one, set the base URL. -/
def setCurrentSessionEnvironmentVariables (config : Config) (e : Env) : Env :=
  let e := { e with ANTHROPIC_AUTH_TOKEN := none, ANTHROPIC_API_KEY := none }
  let e :=
    if config.type = str "KEY" then { e with ANTHROPIC_API_KEY := some (jsStr config.token) }
    else { e with ANTHROPIC_AUTH_TOKEN := some (jsStr config.token) }
  { e with ANTHROPIC_BASE_URL := some (jsStr config.url) }

/-- The mutable state touched by the manager: the profile-list file, the
active-pointer file (`none` when absent), the settings file (`none` when
absent or unparseable), the Unix shell startup file, and the in-process
environment. -/
structure State where
  configFile : Str
  currentFile : Option Str
  settingsFile : Option Json
  shellFile : Str
  env : Env

/-- Models `ConfigManager.updateShellConfig` on the Unix path (the Windows path
differs only in which startup file is edited, not in the in-process
environment update): set the session environment variables first, then edit
the shell startup file. -/
def updateShellConfig (config : Config) (st : State) : State :=
  let st := { st with env := setCurrentSessionEnvironmentVariables config st.env }
  { st with shellFile := updateUnixShellConfig config st.shellFile }

/-- Models `ConfigManager.setCurrentConfig`: write the active-pointer snapshot, then
try the settings-file update; on any failure there (modelled by
`updateClaudeSettings` returning `none`, or by the file write failing,
`writeOk = false`) fall back to the shell-config path. -/
def setCurrentConfig (writeOk : Bool) (config : Config) (st : State) : State :=
  let st1 := { st with currentFile := some (serializeConfig config) }
  match
    (if writeOk then updateClaudeSettings (jsStr config.token) (jsStr config.url)
      st1.settingsFile else none) with
  | some j => { st1 with settingsFile := some j }
  | none => updateShellConfig config st1

/-- Models `ConfigManager.removeConfig`: throws `unknownAlias` when no record
matches; otherwise rewrites the profile-list file with the remaining records
joined by newlines, then deletes the active-pointer file if its content
starts with the removed alias followed by a pipe. -/
def removeConfig (alias_ : Str) (st : State) : Except CfgError (State × Config) :=
  let configs := getAllConfigs st.configFile
  match configs.find? (fun c => c.alias_ == some alias_) with
  | none => .error (.unknownAlias alias_)
  | some configToRemove =>
    let remainingConfigs := configs.filter (fun c => !(c.alias_ == some alias_))
    let content := List.intercalate (str "\n") (remainingConfigs.map serializeConfig)
    let st := { st with configFile := content }
    let st :=
      match st.currentFile with
      | some cur =>
        if (alias_ ++ str "|").isPrefixOf cur then { st with currentFile := none } else st
      | none => st
    .ok (st, configToRemove)

/-- A parsed active pointer plus the liveness bit, as returned by
`ConfigManager.getCurrentConfig`. -/
structure CurrentConfig where
  alias_ : Option Str
  name : Option Str
  token : Option Str
  url : Option Str
  type : Str
  isActive : Bool
  deriving Repr, DecidableEq

/-- Models `ConfigManager.getCurrentConfig`: absent pointer file means `none`;
otherwise parse the single stored line and compare the kind-appropriate
credential variable and the base URL against the in-process environment. -/
def getCurrentConfig (st : State) : Option CurrentConfig :=
  match st.currentFile with
  | none => none
  | some content =>
    let parts := splitOnChar '|' content
    let token := parts.get? 2
    let url := parts.get? 3
    let type := jsOr (parts.get? 4) (str "TOKEN")
    let envVal :=
      if type = str "KEY" then st.env.ANTHROPIC_API_KEY else st.env.ANTHROPIC_AUTH_TOKEN
    some
      { alias_ := parts.get? 0
        name := parts.get? 1
        token := token
        url := url
        type := type
        isActive := envVal == token && st.env.ANTHROPIC_BASE_URL == url }

/-- Well-formedness of a stored record: every field is defined and free of
the two reserved separator characters, and the kind string is non-empty.
Records parsed from a well-formed store line satisfy this automatically
(`configWF_of_mem_getAllConfigs`). -/
def ConfigWF (c : Config) : Prop :=
  (∃ s, c.alias_ = some s ∧ '|' ∉ s ∧ '\n' ∉ s)
  ∧ (∃ s, c.name = some s ∧ '|' ∉ s ∧ '\n' ∉ s)
  ∧ (∃ s, c.token = some s ∧ '|' ∉ s ∧ '\n' ∉ s)
  ∧ (∃ s, c.url = some s ∧ '|' ∉ s ∧ '\n' ∉ s)
  ∧ c.type ≠ [] ∧ '|' ∉ c.type ∧ '\n' ∉ c.type

/-- A concrete two-record store used by witnesses. -/
def stC5 : State :=
  { configFile := str "a|b|c|d|KEY\ne|f|g|h", currentFile := none, settingsFile := none,
    shellFile := [], env := ⟨none, none, none⟩ }

/-- A concrete well-formed TOKEN-kind profile. -/
def cfg0 : Config :=
  { alias_ := some (str "a"), name := some (str "Claude"), token := some (str "sk"),
    url := some (str "https://x"), type := str "TOKEN" }

/-- A concrete initial state: empty store, no pointer, a parseable settings
file (the default document), empty shell file, empty environment. -/
def st0 : State :=
  { configFile := str "", currentFile := none, settingsFile := some defaultSettings,
    shellFile := [], env := ⟨none, none, none⟩ }

/-- Modelled from the spec's liveness scenario (not a repository function):
the external tampering action — overwrite the kind-appropriate in-process
credential variable with an arbitrary value, leaving all else alone. -/
def setKindVar (cfg : Config) (v : Str) (st : State) : State :=
  if cfg.type = str "KEY" then
    { st with env := { st.env with ANTHROPIC_API_KEY := some v } }
  else
    { st with env := { st.env with ANTHROPIC_AUTH_TOKEN := some v } }

/-- Property read on a JSON value (none when not an object or key absent). -/
def jsonGet (j : Json) (k : Str) : Option Json :=
  match j with
  | .obj fs => lookupField fs k
  | _ => none

/-- Two-level property read, for `doc.env.<k>`-style paths. -/
def jsonGet2 (j : Json) (k1 k2 : Str) : Option Json :=
  match jsonGet j k1 with
  | some v => jsonGet v k2
  | none => none

/-- A concrete parsed settings document with unrelated top-level and env
keys, used as the C8 witness input. -/
def jC8 : Json :=
  .obj
    [(str "permissions", .obj [(str "allow", .arr [.str (str "Bash")]), (str "deny", .arr [])]),
     (str "env", .obj [(str "FOO", .str (str "bar")),
       (str "ANTHROPIC_AUTH_TOKEN", .str (str "old"))]),
     (str "other", .num 5)]

/-- Number of indices at which `pat` occurs as a substring of `s` (counting
overlapping occurrences). -/
def occCount (pat : Str) : Str → Nat
  | [] => if pat.isPrefixOf ([] : Str) then 1 else 0
  | c :: rest => (if pat.isPrefixOf (c :: rest) then 1 else 0) + occCount pat rest

theorem splitOnChar_ne_nil (sep : Char) (s : Str) : splitOnChar sep s ≠ [] := by
  cases s with
  | nil => simp [splitOnChar]
  | cons c rest =>
    simp only [splitOnChar]
    by_cases h : c = sep
    · simp [h]
    · simp only [h, if_false]
      cases splitOnChar sep rest <;> simp

theorem splitOnChar_append_sep (sep : Char) (a b : Str) :
    splitOnChar sep (a ++ sep :: b) = splitOnChar sep a ++ splitOnChar sep b := by
  induction a with
  | nil => simp [splitOnChar]
  | cons c a ih =>
    by_cases h : c = sep
    · simp [splitOnChar, h, ih]
    · simp only [List.cons_append, splitOnChar, h, if_false]
      simp only [List.append_eq]
      rw [ih]
      cases hsp : splitOnChar sep a with
      | nil => exact absurd hsp (splitOnChar_ne_nil sep a)
      | cons p ps => simp

theorem splitOnChar_of_not_mem {sep : Char} {s : Str} (h : sep ∉ s) :
    splitOnChar sep s = [s] := by
  induction s with
  | nil => simp [splitOnChar]
  | cons c rest ih =>
    have hc : c ≠ sep := fun hc => h (hc ▸ List.mem_cons_self c rest)
    have hrest : sep ∉ rest := fun hr => h (List.mem_cons_of_mem c hr)
    simp [splitOnChar, hc, ih hrest]

theorem not_mem_of_mem_splitOnChar {sep : Char} {s : Str} {l : Str}
    (h : l ∈ splitOnChar sep s) : sep ∉ l := by
  induction s generalizing l with
  | nil =>
    simp only [splitOnChar, List.mem_singleton] at h
    simp [h]
  | cons c rest ih =>
    simp only [splitOnChar] at h
    by_cases hc : c = sep
    · simp only [hc, if_true, List.mem_cons] at h
      rcases h with h | h
      · simp [h]
      · exact ih h
    · simp only [hc, if_false] at h
      cases hsp : splitOnChar sep rest with
      | nil => exact absurd hsp (splitOnChar_ne_nil sep rest)
      | cons p ps =>
        rw [hsp] at h
        rcases List.mem_cons.mp h with h | h
        · subst h
          intro hm
          rcases List.mem_cons.mp hm with h | h
          · exact hc h.symm
          · exact ih (hsp ▸ List.mem_cons_self p ps) h
        · exact ih (hsp ▸ List.mem_cons_of_mem p h)

theorem mem_of_mem_splitOnChar {sep : Char} {s : Str} {l : Str} {c : Char}
    (h : l ∈ splitOnChar sep s) (hc : c ∈ l) : c ∈ s := by
  induction s generalizing l with
  | nil =>
    simp only [splitOnChar, List.mem_singleton] at h
    subst h
    exact hc
  | cons d rest ih =>
    simp only [splitOnChar] at h
    by_cases hd : d = sep
    · simp only [hd, if_true, List.mem_cons] at h
      rcases h with h | h
      · subst h; cases hc
      · exact List.mem_cons_of_mem d (ih h hc)
    · simp only [hd, if_false] at h
      cases hsp : splitOnChar sep rest with
      | nil => exact absurd hsp (splitOnChar_ne_nil sep rest)
      | cons p ps =>
        rw [hsp] at h
        rcases List.mem_cons.mp h with h | h
        · subst h
          rcases List.mem_cons.mp hc with h | h
          · simp [h]
          · exact List.mem_cons_of_mem d (ih (hsp ▸ List.mem_cons_self p ps) h)
        · exact List.mem_cons_of_mem d (ih (hsp ▸ List.mem_cons_of_mem p h) hc)

theorem isPrefixOf_eq_iff {l1 l2 : Str} : l1.isPrefixOf l2 = true ↔ l1 <+: l2 :=
  List.isPrefixOf_iff_prefix

theorem nil_isInfixOf {l : Str} : ([] : Str) <:+: l :=
  List.nil_infix

theorem take_isPrefixOf (n : Nat) (l : Str) : l.take n <+: l :=
  List.take_prefix n l

/-- C3: the credential-kind resolver maps the aicodemirror URL to KEY and the
aicodewith URL to TOKEN when no override is given; a case-normalized override
of key/k (resp. token/t) forces KEY (resp. TOKEN) for every URL; any other
override literal falls through to the URL allow-lists; and a URL in neither
allow-list resolves to TOKEN. -/
theorem C3_determineKeyType_spec :
    determineKeyType (str "https://api.aicodemirror.com/api/claudecode") none = str "KEY"
    ∧ determineKeyType (str "https://api.aicodewith.com") none = str "TOKEN"
    ∧ (∀ url t, t.map Char.toLower = str "key" ∨ t.map Char.toLower = str "k" →
        determineKeyType url (some t) = str "KEY")
    ∧ (∀ url t, t.map Char.toLower = str "token" ∨ t.map Char.toLower = str "t" →
        determineKeyType url (some t) = str "TOKEN")
    ∧ (∀ url t, t.map Char.toLower ∉ [str "key", str "k", str "token", str "t"] →
        determineKeyType url (some t) = determineKeyType url none)
    ∧ (∀ url, url ∉ tokenUrls → url ∉ keyUrls → determineKeyType url none = str "TOKEN") := by
  refine ⟨by decide, by decide, ?_, ?_, ?_, ?_⟩
  · intro url t ht
    have hne : t ≠ [] := by
      rcases ht with h | h <;> intro h0 <;> simp [h0, str] at h
    have htr : jsTruthy (some t) = true := by
      simp [jsTruthy, List.isEmpty_iff, hne]
    simp only [determineKeyType, htr, if_true, jsStr]
    rcases ht with h | h <;> simp [h, str]
  · intro url t ht
    have hne : t ≠ [] := by
      rcases ht with h | h <;> intro h0 <;> simp [h0, str] at h
    have htr : jsTruthy (some t) = true := by
      simp [jsTruthy, List.isEmpty_iff, hne]
    have hnk : ¬ (t.map Char.toLower ∈ [str "key", str "k"]) := by
      rcases ht with h | h <;> simp [h] <;> decide
    simp only [determineKeyType, htr, if_true, jsStr]
    rw [if_neg hnk]
    rcases ht with h | h <;> simp [h, str]
  · intro url t ht
    by_cases hne : t = []
    · subst hne
      simp [determineKeyType, jsTruthy]
    · have htr : jsTruthy (some t) = true := by
        simp [jsTruthy, List.isEmpty_iff, hne]
      simp only [List.mem_cons, not_or] at ht
      simp [determineKeyType, htr, jsStr, ht.1, ht.2.1, ht.2.2.1, ht.2.2.2.1, jsTruthy]
  · intro url h1 h2
    simp [determineKeyType, jsTruthy, h1, h2]

/-- Witness for C3: the override "K" (case-normalized to "k") forces KEY on an
arbitrary URL not in any allow-list. -/
theorem C3_determineKeyType_spec_witness :
    determineKeyType (str "https://example.com") (some (str "K")) = str "KEY" :=
  C3_determineKeyType_spec.2.2.1 (str "https://example.com") (str "K") (by decide)

/- ### Store lemmas -/

theorem str_newline_eq : str "\n" = ['\n'] := rfl

theorem str_pipe_eq : str "|" = ['|'] := rfl

theorem nonBlank_of_pipe_mem {line : Str} (h : '|' ∈ line) : nonBlank line = true := by
  simp only [nonBlank, List.any_eq_true]
  exact ⟨'|', h, by decide⟩

theorem getAllConfigs_append_line (file line : Str) (hnl : '\n' ∉ line)
    (hnb : nonBlank line = true) :
    getAllConfigs (file ++ '\n' :: line) = getAllConfigs file ++ [parseLine line] := by
  unfold getAllConfigs
  rw [splitOnChar_append_sep, List.filter_append, List.map_append,
    splitOnChar_of_not_mem hnl]
  simp [hnb]

theorem parseLine_fields (a n t u k : Str) (ha : '|' ∉ a) (hn : '|' ∉ n) (ht : '|' ∉ t)
    (hu : '|' ∉ u) (hk : '|' ∉ k) :
    parseLine (a ++ '|' :: (n ++ '|' :: (t ++ '|' :: (u ++ '|' :: k)))) =
      { alias_ := some a, name := some n, token := some t, url := some u,
        type := jsOr (some k) (str "TOKEN") } := by
  unfold parseLine
  rw [splitOnChar_append_sep, splitOnChar_of_not_mem ha,
    splitOnChar_append_sep, splitOnChar_of_not_mem hn,
    splitOnChar_append_sep, splitOnChar_of_not_mem ht,
    splitOnChar_append_sep, splitOnChar_of_not_mem hu,
    splitOnChar_of_not_mem hk]
  rfl

/-- C7 counterexample: on the malformed two-field line "a|b", `getAllConfigs`
does return one record, but its missing `token` field is `undefined` (`none`),
not the empty string the claim asserts. -/
theorem C7_counterexample :
    (getAllConfigs (str "a|b")).map Config.token = [none]
    ∧ (none : Option Str) ≠ some [] := by decide

/-- C7 (amended): a non-blank stored line with fewer than four pipe-separated
fields still yields exactly one record from `getAllConfigs`, with the alias
present and each missing field `undefined` (`none`, not the empty string);
a missing fifth field defaults to "TOKEN". -/
theorem C7_malformed_line (line : Str) (hnb : nonBlank line = true) (hnl : '\n' ∉ line) :
    getAllConfigs line = [parseLine line]
    ∧ (parseLine line).alias_ ≠ none
    ∧ ((splitOnChar '|' line).length ≤ 1 → (parseLine line).name = none)
    ∧ ((splitOnChar '|' line).length ≤ 2 → (parseLine line).token = none)
    ∧ ((splitOnChar '|' line).length ≤ 3 → (parseLine line).url = none)
    ∧ ((splitOnChar '|' line).length ≤ 4 → (parseLine line).type = str "TOKEN") := by
  have h1 : splitOnChar '\n' line = [line] := splitOnChar_of_not_mem hnl
  refine ⟨by simp [getAllConfigs, h1, hnb], ?_, ?_, ?_, ?_, ?_⟩
  · cases hsp : splitOnChar '|' line with
    | nil => exact absurd hsp (splitOnChar_ne_nil '|' line)
    | cons p ps => simp [parseLine, hsp]
  · intro h
    simp [parseLine, List.getElem?_eq_none h]
  · intro h
    simp [parseLine, List.getElem?_eq_none h]
  · intro h
    simp [parseLine, List.getElem?_eq_none h]
  · intro h
    simp [parseLine, List.getElem?_eq_none h, jsOr]

/-- Witness for the amended C7 at the concrete malformed line "a|b". -/
theorem C7_malformed_line_witness :
    getAllConfigs (str "a|b") = [parseLine (str "a|b")]
    ∧ (parseLine (str "a|b")).token = none :=
  ⟨(C7_malformed_line (str "a|b") (by decide) (by decide)).1,
   (C7_malformed_line (str "a|b") (by decide) (by decide)).2.2.2.1 (by decide)⟩

theorem jsOr_some_jsOr (x : Option Str) (d : Str) (hd : d ≠ []) :
    jsOr (some (jsOr x d)) d = jsOr x d := by
  cases x with
  | none => simp [jsOr, List.isEmpty_iff, hd]
  | some s =>
    by_cases hs : s = []
    · simp [jsOr, List.isEmpty_iff, hs, hd]
    · simp [jsOr, List.isEmpty_iff, hs, hd]

/-- C4: `addConfig` with an alias already in the store throws the
duplicate-alias error (in the source the throw happens before any write, so
the backing file is untouched); with a fresh alias it succeeds and the new
store parses to the old sequence with exactly the one new record appended.
The field hypotheses say the supplied profile fields are valid record fields
(no pipe separator, no newline). -/
theorem C4_addConfig_spec (alias_ name token url : Str) (keyType : Option Str) (file : Str)
    (ha : '|' ∉ alias_ ∧ '\n' ∉ alias_) (hn : '|' ∉ name ∧ '\n' ∉ name)
    (ht : '|' ∉ token ∧ '\n' ∉ token) (hu : '|' ∉ url ∧ '\n' ∉ url)
    (hk : '|' ∉ jsOr keyType (str "TOKEN") ∧ '\n' ∉ jsOr keyType (str "TOKEN")) :
    ((∃ c ∈ getAllConfigs file, c.alias_ = some alias_) →
      addConfig alias_ name token url keyType file = .error (.duplicateAlias alias_))
    ∧ ((∀ c ∈ getAllConfigs file, c.alias_ ≠ some alias_) →
      ∃ newFile, addConfig alias_ name token url keyType file = .ok newFile ∧
        getAllConfigs newFile = getAllConfigs file ++
          [{ alias_ := some alias_, name := some name, token := some token, url := some url,
             type := jsOr keyType (str "TOKEN") }]) := by
  constructor
  · rintro ⟨c, hc, hceq⟩
    have hfind : ((getAllConfigs file).find? (fun c => c.alias_ == some alias_)).isSome := by
      rw [List.find?_isSome]
      exact ⟨c, hc, by simp [hceq]⟩
    simp [addConfig, hfind]
  · intro hall
    have hfind : (getAllConfigs file).find? (fun c => c.alias_ == some alias_) = none := by
      rw [List.find?_eq_none]
      intro c hc
      simp [hall c hc]
    refine ⟨file ++ str "\n" ++ (alias_ ++ str "|" ++ name ++ str "|" ++ token ++ str "|"
      ++ url ++ str "|" ++ jsOr keyType (str "TOKEN")), by simp [addConfig, hfind], ?_⟩
    have hline :
        file ++ str "\n" ++ (alias_ ++ str "|" ++ name ++ str "|" ++ token ++ str "|" ++ url
          ++ str "|" ++ jsOr keyType (str "TOKEN")) =
        file ++ '\n' :: (alias_ ++ '|' :: (name ++ '|' :: (token ++ '|' :: (url ++ '|' ::
          jsOr keyType (str "TOKEN"))))) := by
      simp [str_newline_eq, str_pipe_eq]
    rw [hline]
    have hnlline : '\n' ∉ alias_ ++ '|' :: (name ++ '|' :: (token ++ '|' :: (url ++ '|' ::
        jsOr keyType (str "TOKEN")))) := by
      intro hmem
      simp only [List.mem_append, List.mem_cons] at hmem
      rcases hmem with h | h | h | h | h | h | h | h | h
      · exact ha.2 h
      · exact absurd h (by decide)
      · exact hn.2 h
      · exact absurd h (by decide)
      · exact ht.2 h
      · exact absurd h (by decide)
      · exact hu.2 h
      · exact absurd h (by decide)
      · exact hk.2 h
    have hpmem : '|' ∈ alias_ ++ '|' :: (name ++ '|' :: (token ++ '|' :: (url ++ '|' ::
        jsOr keyType (str "TOKEN")))) := by
      simp
    rw [getAllConfigs_append_line _ _ hnlline (nonBlank_of_pipe_mem hpmem),
      parseLine_fields alias_ name token url _ ha.1 hn.1 ht.1 hu.1 hk.1,
      jsOr_some_jsOr keyType (str "TOKEN") (by decide)]

/-- Witness for C4: adding a fresh alias to a one-record store appends
exactly that record. -/
theorem C4_addConfig_spec_witness :
    ∃ newFile,
      addConfig (str "x") (str "Claude") (str "tok") (str "https://u") none
        (str "a|b|c|d|KEY") = .ok newFile ∧
      getAllConfigs newFile = getAllConfigs (str "a|b|c|d|KEY") ++
        [{ alias_ := some (str "x"), name := some (str "Claude"), token := some (str "tok"),
           url := some (str "https://u"), type := jsOr none (str "TOKEN") }] :=
  (C4_addConfig_spec (str "x") (str "Claude") (str "tok") (str "https://u") none
    (str "a|b|c|d|KEY") (by decide) (by decide) (by decide) (by decide) (by decide)).2
    (by decide)

theorem serializeConfig_eq {c : Config} {a n t u : Str} (ha : c.alias_ = some a)
    (hn : c.name = some n) (ht : c.token = some t) (hu : c.url = some u)
    (hty : c.type ≠ []) :
    serializeConfig c = a ++ '|' :: (n ++ '|' :: (t ++ '|' :: (u ++ '|' :: c.type))) := by
  simp [serializeConfig, jsStr, ha, hn, ht, hu, jsOr, List.isEmpty_iff, hty, str_pipe_eq]

theorem parseLine_serializeConfig {c : Config} (h : ConfigWF c) :
    parseLine (serializeConfig c) = c := by
  obtain ⟨⟨a, ha, ha1, ha2⟩, ⟨n, hn, hn1, hn2⟩, ⟨t, ht, ht1, ht2⟩, ⟨u, hu, hu1, hu2⟩,
    hty, hty1, hty2⟩ := h
  rw [serializeConfig_eq ha hn ht hu hty,
    parseLine_fields a n t u c.type ha1 hn1 ht1 hu1 hty1]
  cases c
  simp_all [jsOr, List.isEmpty_iff]

theorem serializeConfig_no_newline {c : Config} (h : ConfigWF c) :
    '\n' ∉ serializeConfig c := by
  obtain ⟨⟨a, ha, ha1, ha2⟩, ⟨n, hn, hn1, hn2⟩, ⟨t, ht, ht1, ht2⟩, ⟨u, hu, hu1, hu2⟩,
    hty, hty1, hty2⟩ := h
  rw [serializeConfig_eq ha hn ht hu hty]
  intro hmem
  simp only [List.mem_append, List.mem_cons] at hmem
  rcases hmem with h | h | h | h | h | h | h | h | h
  · exact ha2 h
  · exact absurd h (by decide)
  · exact hn2 h
  · exact absurd h (by decide)
  · exact ht2 h
  · exact absurd h (by decide)
  · exact hu2 h
  · exact absurd h (by decide)
  · exact hty2 h

theorem serializeConfig_nonBlank (c : Config) : nonBlank (serializeConfig c) = true := by
  apply nonBlank_of_pipe_mem
  simp [serializeConfig, str_pipe_eq]

theorem configWF_of_mem_getAllConfigs {file : Str} {c : Config}
    (hc : c ∈ getAllConfigs file) (h1 : c.name ≠ none) (h2 : c.token ≠ none)
    (h3 : c.url ≠ none) : ConfigWF c := by
  simp only [getAllConfigs, List.mem_map, List.mem_filter] at hc
  obtain ⟨line, ⟨hline, _⟩, hparse⟩ := hc
  have hnlline : '\n' ∉ line := not_mem_of_mem_splitOnChar hline
  have hget : ∀ i s, (splitOnChar '|' line).get? i = some s → '|' ∉ s ∧ '\n' ∉ s := by
    intro i s hi
    have hs : s ∈ splitOnChar '|' line := List.get?_mem hi
    exact ⟨not_mem_of_mem_splitOnChar hs,
      fun hmem => hnlline (mem_of_mem_splitOnChar hs hmem)⟩
  have hfields : (parseLine line).alias_ = (splitOnChar '|' line).get? 0
      ∧ (parseLine line).name = (splitOnChar '|' line).get? 1
      ∧ (parseLine line).token = (splitOnChar '|' line).get? 2
      ∧ (parseLine line).url = (splitOnChar '|' line).get? 3
      ∧ (parseLine line).type = jsOr ((splitOnChar '|' line).get? 4) (str "TOKEN") :=
    ⟨rfl, rfl, rfl, rfl, rfl⟩
  subst hparse
  refine ⟨?_, ?_, ?_, ?_, ?_⟩
  · cases hsp : splitOnChar '|' line with
    | nil => exact absurd hsp (splitOnChar_ne_nil '|' line)
    | cons p ps =>
      have hp : (splitOnChar '|' line).get? 0 = some p := by rw [hsp]; rfl
      exact ⟨p, hfields.1.trans hp, (hget 0 p hp).1, (hget 0 p hp).2⟩
  · obtain ⟨s, hs⟩ := Option.ne_none_iff_exists'.mp h1
    have hs' : (splitOnChar '|' line).get? 1 = some s := hfields.2.1.symm.trans hs
    exact ⟨s, hs, (hget 1 s hs').1, (hget 1 s hs').2⟩
  · obtain ⟨s, hs⟩ := Option.ne_none_iff_exists'.mp h2
    have hs' : (splitOnChar '|' line).get? 2 = some s := hfields.2.2.1.symm.trans hs
    exact ⟨s, hs, (hget 2 s hs').1, (hget 2 s hs').2⟩
  · obtain ⟨s, hs⟩ := Option.ne_none_iff_exists'.mp h3
    have hs' : (splitOnChar '|' line).get? 3 = some s := hfields.2.2.2.1.symm.trans hs
    exact ⟨s, hs, (hget 3 s hs').1, (hget 3 s hs').2⟩
  · rw [hfields.2.2.2.2]
    cases hg : (splitOnChar '|' line).get? 4 with
    | none => refine ⟨by decide, by decide, by decide⟩
    | some s =>
      by_cases hse : s = []
      · simp [jsOr, hse]
        exact ⟨by decide, by decide, by decide⟩
      · have := hget 4 s hg
        simp [jsOr, List.isEmpty_iff, hse]
        exact ⟨this.1, this.2⟩

theorem intercalate_single (sep x : Str) : List.intercalate sep [x] = x := by
  simp [List.intercalate]

theorem intercalate_cons (sep x : Str) (l : List Str) (hl : l ≠ []) :
    List.intercalate sep (x :: l) = x ++ sep ++ List.intercalate sep l := by
  cases l with
  | nil => exact absurd rfl hl
  | cons b bs =>
    show ((x :: b :: bs).intersperse sep).flatten = _
    rw [show (x :: b :: bs).intersperse sep = x :: sep :: ((b :: bs).intersperse sep) from rfl]
    simp [List.intercalate, List.append_assoc]

theorem getAllConfigs_cons_line (line rest : Str) (hnl : '\n' ∉ line)
    (hnb : nonBlank line = true) :
    getAllConfigs (line ++ '\n' :: rest) = parseLine line :: getAllConfigs rest := by
  unfold getAllConfigs
  rw [splitOnChar_append_sep, splitOnChar_of_not_mem hnl]
  simp [hnb]

theorem getAllConfigs_single_line (line : Str) (hnl : '\n' ∉ line)
    (hnb : nonBlank line = true) :
    getAllConfigs line = [parseLine line] := by
  unfold getAllConfigs
  rw [splitOnChar_of_not_mem hnl]
  simp [hnb]

theorem getAllConfigs_intercalate (cs : List Config) (h : ∀ c ∈ cs, ConfigWF c) :
    getAllConfigs (List.intercalate (str "\n") (cs.map serializeConfig)) = cs := by
  induction cs with
  | nil => decide
  | cons c cs ih =>
    have hcwf := h c (List.mem_cons_self c cs)
    cases cs with
    | nil =>
      rw [List.map_cons, List.map_nil, intercalate_single,
        getAllConfigs_single_line _ (serializeConfig_no_newline hcwf)
          (serializeConfig_nonBlank c), parseLine_serializeConfig hcwf]
    | cons c2 cs2 =>
      rw [List.map_cons, intercalate_cons _ _ _ (by simp)]
      have hassoc : serializeConfig c ++ str "\n"
          ++ List.intercalate (str "\n") ((c2 :: cs2).map serializeConfig)
          = serializeConfig c ++ '\n'
          :: List.intercalate (str "\n") ((c2 :: cs2).map serializeConfig) := by
        simp [str_newline_eq]
      rw [hassoc, getAllConfigs_cons_line _ _ (serializeConfig_no_newline hcwf)
        (serializeConfig_nonBlank c), parseLine_serializeConfig hcwf,
        ih (fun c' hc' => h c' (List.mem_cons_of_mem c hc'))]

/-- C5: `removeConfig` throws the unknown-alias error exactly when no stored
record carries the requested alias (and the throw happens before any write,
so the store is untouched); when a unique record carries it and the store has
no malformed records, the rewritten store parses to the prior sequence with
exactly that record deleted, the rest in original order. -/
theorem C5_removeConfig_spec (alias_ : Str) (st : State) :
    ((removeConfig alias_ st = .error (.unknownAlias alias_)) ↔
      ∀ c ∈ getAllConfigs st.configFile, c.alias_ ≠ some alias_)
    ∧ (∀ pre post cfg, getAllConfigs st.configFile = pre ++ cfg :: post →
        cfg.alias_ = some alias_ →
        (∀ c ∈ pre, c.alias_ ≠ some alias_) →
        (∀ c ∈ post, c.alias_ ≠ some alias_) →
        (∀ c ∈ getAllConfigs st.configFile, c.name ≠ none ∧ c.token ≠ none ∧ c.url ≠ none) →
        ∃ st', removeConfig alias_ st = .ok (st', cfg) ∧
          getAllConfigs st'.configFile = pre ++ post) := by
  constructor
  · constructor
    · intro herr c hc hceq
      have hfind : ((getAllConfigs st.configFile).find?
          (fun c => c.alias_ == some alias_)).isSome := by
        rw [List.find?_isSome]
        exact ⟨c, hc, by simp [hceq]⟩
      rcases hsome : (getAllConfigs st.configFile).find?
          (fun c => c.alias_ == some alias_) with _ | found
      · rw [hsome] at hfind
        cases hfind
      · simp only [removeConfig] at herr
        rw [hsome] at herr
        simp at herr
    · intro hall
      have hfind : (getAllConfigs st.configFile).find?
          (fun c => c.alias_ == some alias_) = none := by
        rw [List.find?_eq_none]
        intro c hc
        simp [hall c hc]
      simp only [removeConfig]
      rw [hfind]
  · intro pre post cfg hdecomp hcfg hpre hpost hwf
    have hfind : (getAllConfigs st.configFile).find?
        (fun c => c.alias_ == some alias_) = some cfg := by
      rw [hdecomp, List.find?_append]
      have h1 : pre.find? (fun c => c.alias_ == some alias_) = none := by
        rw [List.find?_eq_none]
        intro c hc
        simp [hpre c hc]
      rw [h1, List.find?_cons_of_pos _ (by simp [hcfg])]
      rfl
    have hfilter : (getAllConfigs st.configFile).filter
        (fun c => !(c.alias_ == some alias_)) = pre ++ post := by
      rw [hdecomp, List.filter_append, List.filter_cons_of_neg (by simp [hcfg]),
        List.filter_eq_self.mpr (fun c hc => by simp [hpre c hc]),
        List.filter_eq_self.mpr (fun c hc => by simp [hpost c hc])]
    have hwfall : ∀ c ∈ pre ++ post, ConfigWF c := by
      intro c hc
      have hcmem : c ∈ getAllConfigs st.configFile := by
        rw [hdecomp]
        rcases List.mem_append.mp hc with h | h
        · exact List.mem_append_left _ h
        · exact List.mem_append_right _ (List.mem_cons_of_mem cfg h)
      obtain ⟨w1, w2, w3⟩ := hwf c hcmem
      exact configWF_of_mem_getAllConfigs hcmem w1 w2 w3
    simp only [removeConfig]
    rw [hfind]
    simp only [hfilter]
    refine ⟨_, rfl, ?_⟩
    rcases hcur : st.currentFile with _ | cur
    · simpa using getAllConfigs_intercalate (pre ++ post) hwfall
    · by_cases hpfx : (alias_ ++ str "|").isPrefixOf cur = true
      · simpa [hpfx] using getAllConfigs_intercalate (pre ++ post) hwfall
      · simpa [hpfx] using getAllConfigs_intercalate (pre ++ post) hwfall

/-- Witness for C5: removing the second of two records keeps exactly the
first, in order. -/
theorem C5_removeConfig_spec_witness :
    ∃ st', removeConfig (str "e") stC5 = .ok (st', parseLine (str "e|f|g|h")) ∧
      getAllConfigs st'.configFile = [parseLine (str "a|b|c|d|KEY")] ++ [] :=
  (C5_removeConfig_spec (str "e") stC5).2 [parseLine (str "a|b|c|d|KEY")] []
    (parseLine (str "e|f|g|h")) (by decide) (by decide) (by decide) (by decide) (by decide)

/- ### Activation-state lemmas -/

theorem setCurrentConfig_projections (writeOk : Bool) (cfg : Config) (st : State) :
    (setCurrentConfig writeOk cfg st).configFile = st.configFile
    ∧ (setCurrentConfig writeOk cfg st).currentFile = some (serializeConfig cfg) := by
  simp only [setCurrentConfig]
  rcases hv : (if writeOk then updateClaudeSettings (jsStr cfg.token) (jsStr cfg.url)
      st.settingsFile else none) with _ | j
  · simp [updateShellConfig]
  · simp

theorem setCurrentConfig_fallback (writeOk : Bool) (cfg : Config) (st : State)
    (h : updateClaudeSettings (jsStr cfg.token) (jsStr cfg.url) st.settingsFile = none
      ∨ writeOk = false) :
    setCurrentConfig writeOk cfg st =
      updateShellConfig cfg { st with currentFile := some (serializeConfig cfg) } := by
  cases writeOk with
  | false => simp [setCurrentConfig]
  | true =>
    rcases h with h | h
    · simp [setCurrentConfig, h]
    · cases h

theorem setCurrentConfig_success (cfg : Config) (st : State) (j : Json)
    (h : updateClaudeSettings (jsStr cfg.token) (jsStr cfg.url) st.settingsFile = some j) :
    setCurrentConfig true cfg st =
      { st with currentFile := some (serializeConfig cfg), settingsFile := some j } := by
  simp [setCurrentConfig, h]

theorem serializeConfig_startsWith {cfg : Config} {a : Str} (ha : cfg.alias_ = some a) :
    (a ++ str "|").isPrefixOf (serializeConfig cfg) = true := by
  rw [isPrefixOf_eq_iff]
  unfold serializeConfig
  rw [ha]
  show a ++ str "|" <+: a ++ str "|" ++ _ ++ _ ++ _ ++ _ ++ _ ++ _ ++ _
  simp only [List.append_assoc]
  rw [← List.append_assoc a (str "|")]
  exact List.prefix_append _ _

/-- C6: activating a stored profile and then removing its alias clears the
active pointer: `getCurrentConfig` reports nothing active afterwards.  This
holds on both activation paths (settings-file success and shell fallback). -/
theorem C6_remove_after_activate (writeOk : Bool) (cfg : Config) (a : Str) (st : State)
    (hmem : cfg ∈ getAllConfigs st.configFile) (ha : cfg.alias_ = some a) :
    ∃ st' c, removeConfig a (setCurrentConfig writeOk cfg st) = .ok (st', c) ∧
      getCurrentConfig st' = none := by
  have hproj := setCurrentConfig_projections writeOk cfg st
  rcases hf : (getAllConfigs (setCurrentConfig writeOk cfg st).configFile).find?
      (fun c => c.alias_ == some a) with _ | found
  · rw [List.find?_eq_none] at hf
    exact absurd (by simp [ha] : (cfg.alias_ == some a) = true)
      (hf cfg (by rw [hproj.1]; exact hmem))
  · simp only [removeConfig]
    rw [hf]
    refine ⟨_, found, rfl, ?_⟩
    rw [hproj.2]
    simp [serializeConfig_startsWith ha, getCurrentConfig]

/-- Witness for C6: activate then remove a concrete stored profile; the
pointer is gone. -/
theorem C6_remove_after_activate_witness :
    ∃ st' c, removeConfig (str "a")
        (setCurrentConfig true (parseLine (str "a|b|c|d|KEY")) stC5) = .ok (st', c) ∧
      getCurrentConfig st' = none :=
  C6_remove_after_activate true (parseLine (str "a|b|c|d|KEY")) (str "a") stC5
    (by decide) (by decide)

/-- C1 counterexample: when the settings-file update succeeds, activation
returns without touching the in-process environment, so the kind-appropriate
credential variable does not equal the profile's secret and the base-URL
variable is not set, contrary to the claim. -/
theorem C1_counterexample :
    cfg0.type = str "TOKEN" ∧ cfg0.token = some (str "sk")
    ∧ (setCurrentConfig true cfg0 st0).env.ANTHROPIC_AUTH_TOKEN = none
    ∧ (setCurrentConfig true cfg0 st0).env.ANTHROPIC_BASE_URL = none
    ∧ (none : Option Str) ≠ some (str "sk") := by decide

/-- C1 (amended): the in-process environment is updated exactly when the
settings-file update fails and the shell-config fallback runs; in that case
the kind-appropriate credential variable holds the secret, the other
credential variable is cleared, and the base-URL variable holds the base URL.
On the settings-file success path the environment is left unchanged. -/
theorem C1_env_update (writeOk : Bool) (cfg : Config) (st : State) (sec burl : Str)
    (hsec : cfg.token = some sec) (hburl : cfg.url = some burl) :
    ((updateClaudeSettings (jsStr cfg.token) (jsStr cfg.url) st.settingsFile = none
        ∨ writeOk = false) →
      (cfg.type = str "KEY" →
        (setCurrentConfig writeOk cfg st).env.ANTHROPIC_API_KEY = some sec ∧
        (setCurrentConfig writeOk cfg st).env.ANTHROPIC_AUTH_TOKEN = none)
      ∧ (cfg.type = str "TOKEN" →
        (setCurrentConfig writeOk cfg st).env.ANTHROPIC_AUTH_TOKEN = some sec ∧
        (setCurrentConfig writeOk cfg st).env.ANTHROPIC_API_KEY = none)
      ∧ (setCurrentConfig writeOk cfg st).env.ANTHROPIC_BASE_URL = some burl)
    ∧ (∀ j, updateClaudeSettings (jsStr cfg.token) (jsStr cfg.url) st.settingsFile = some j →
        writeOk = true → (setCurrentConfig writeOk cfg st).env = st.env) := by
  constructor
  · intro hfb
    rw [setCurrentConfig_fallback writeOk cfg st hfb]
    refine ⟨?_, ?_, ?_⟩
    · intro hk
      constructor <;>
        simp [updateShellConfig, setCurrentSessionEnvironmentVariables, hk, jsStr, hsec]
    · intro hk
      have hne : ¬ (cfg.type = str "KEY") := by
        rw [hk]; decide
      constructor <;>
        simp [updateShellConfig, setCurrentSessionEnvironmentVariables, hne, jsStr, hsec]
    · simp [updateShellConfig, setCurrentSessionEnvironmentVariables, jsStr, hburl]
  · intro j hj hw
    subst hw
    rw [setCurrentConfig_success cfg st j hj]

/-- Witness for the amended C1: fallback activation of the TOKEN-kind profile
`cfg0` sets the bearer-token variable and clears the key variable. -/
theorem C1_env_update_witness :
    (setCurrentConfig false cfg0 st0).env.ANTHROPIC_AUTH_TOKEN = some (str "sk")
    ∧ (setCurrentConfig false cfg0 st0).env.ANTHROPIC_API_KEY = none :=
  ((C1_env_update false cfg0 st0 (str "sk") (str "https://x") (by decide) (by decide)).1
    (Or.inr rfl)).2.1 (by decide)

theorem splitOnChar_serializeConfig {cfg : Config} (h : ConfigWF cfg) :
    ∃ a n t u, cfg.alias_ = some a ∧ cfg.name = some n ∧ cfg.token = some t
      ∧ cfg.url = some u
      ∧ splitOnChar '|' (serializeConfig cfg) = [a, n, t, u, cfg.type] := by
  obtain ⟨⟨a, ha, ha1, _⟩, ⟨n, hn, hn1, _⟩, ⟨t, ht, ht1, _⟩, ⟨u, hu, hu1, _⟩,
    hty, hty1, _⟩ := h
  refine ⟨a, n, t, u, ha, hn, ht, hu, ?_⟩
  rw [serializeConfig_eq ha hn ht hu hty,
    splitOnChar_append_sep, splitOnChar_of_not_mem ha1,
    splitOnChar_append_sep, splitOnChar_of_not_mem hn1,
    splitOnChar_append_sep, splitOnChar_of_not_mem ht1,
    splitOnChar_append_sep, splitOnChar_of_not_mem hu1,
    splitOnChar_of_not_mem hty1]
  rfl

/-- The liveness bit reported for a state whose pointer file holds the
serialized snapshot of a well-formed profile: the kind-appropriate
environment variable is compared against the stored secret, and the base-URL
variable against the stored URL. -/
theorem getCurrentConfig_of_pointer {st : State} {cfg : Config} (h : ConfigWF cfg)
    (hcur : st.currentFile = some (serializeConfig cfg)) :
    ∃ t u, cfg.token = some t ∧ cfg.url = some u ∧
    (getCurrentConfig st).map CurrentConfig.isActive = some
      (((if cfg.type = str "KEY" then st.env.ANTHROPIC_API_KEY
          else st.env.ANTHROPIC_AUTH_TOKEN) == some t)
        && (st.env.ANTHROPIC_BASE_URL == some u)) := by
  obtain ⟨a, n, t, u, ha, hn, ht, hu, hsplit⟩ := splitOnChar_serializeConfig h
  have hty : cfg.type ≠ [] := h.2.2.2.2.1
  refine ⟨t, u, ht, hu, ?_⟩
  simp [getCurrentConfig, hcur, hsplit, jsOr, List.isEmpty_iff, hty]

/-- C2 counterexample: immediately after an activation whose settings-file
update succeeded, `getCurrentConfig` reports `isActive = false` (the
in-process environment was never updated), contrary to the claim. -/
theorem C2_counterexample :
    (getCurrentConfig (setCurrentConfig true cfg0 st0)).map CurrentConfig.isActive
      = some false
    ∧ (some false : Option Bool) ≠ some true := by decide

/-- C2 (amended): immediately after an activation that took the shell-config
fallback path, `getCurrentConfig` reports `isActive = true`; and in all
cases, altering the kind-appropriate in-process credential variable to any
value different from the profile's secret makes `getCurrentConfig` report
`isActive = false`. -/
theorem C2_isActive (writeOk : Bool) (cfg : Config) (st : State) (sec : Str)
    (hwf : ConfigWF cfg) (hsec : cfg.token = some sec) :
    ((updateClaudeSettings (jsStr cfg.token) (jsStr cfg.url) st.settingsFile = none
        ∨ writeOk = false) →
      (getCurrentConfig (setCurrentConfig writeOk cfg st)).map CurrentConfig.isActive
        = some true)
    ∧ (∀ v : Str, v ≠ sec →
      (getCurrentConfig (setKindVar cfg v (setCurrentConfig writeOk cfg st))).map
        CurrentConfig.isActive = some false) := by
  constructor
  · intro hfb
    have hcur : (setCurrentConfig writeOk cfg st).currentFile
        = some (serializeConfig cfg) := (setCurrentConfig_projections writeOk cfg st).2
    have henv : (setCurrentConfig writeOk cfg st).env
        = setCurrentSessionEnvironmentVariables cfg st.env := by
      rw [setCurrentConfig_fallback writeOk cfg st hfb]
      simp [updateShellConfig]
    obtain ⟨t, u, ht, hu, hform⟩ := getCurrentConfig_of_pointer hwf hcur
    rw [hform, henv]
    by_cases hk : cfg.type = str "KEY" <;>
      simp [setCurrentSessionEnvironmentVariables, hk, jsStr, ht, hu]
  · intro v hv
    have hcur : (setKindVar cfg v (setCurrentConfig writeOk cfg st)).currentFile
        = some (serializeConfig cfg) := by
      unfold setKindVar
      by_cases hk : cfg.type = str "KEY" <;>
        simp [hk, (setCurrentConfig_projections writeOk cfg st).2]
    obtain ⟨t, u, ht, hu, hform⟩ := getCurrentConfig_of_pointer hwf hcur
    rw [hform]
    have htsec : t = sec := by
      rw [hsec] at ht
      exact (Option.some.injEq _ _).mp ht.symm
    subst htsec
    by_cases hk : cfg.type = str "KEY" <;>
      simp [setKindVar, hk, hv]

/-- Witness for the amended C2: fallback activation of `cfg0` reports
`isActive = true`; tampering with the bearer-token variable afterwards
reports `isActive = false`. -/
theorem C2_isActive_witness :
    (getCurrentConfig (setCurrentConfig false cfg0 st0)).map CurrentConfig.isActive
      = some true
    ∧ (getCurrentConfig (setKindVar cfg0 (str "other")
        (setCurrentConfig false cfg0 st0))).map CurrentConfig.isActive = some false := by
  have h := C2_isActive false cfg0 st0 (str "sk")
    ⟨⟨str "a", rfl, by decide, by decide⟩, ⟨str "Claude", rfl, by decide, by decide⟩,
     ⟨str "sk", rfl, by decide, by decide⟩, ⟨str "https://x", rfl, by decide, by decide⟩,
     by decide, by decide, by decide⟩ rfl
  exact ⟨h.1 (Or.inr rfl), h.2 (str "other") (by decide)⟩

theorem lookupField_setField_self (fs : List (Str × Json)) (k : Str) (v : Json) :
    lookupField (setField fs k v) k = some v := by
  induction fs with
  | nil => simp [setField, lookupField]
  | cons p rest ih =>
    obtain ⟨k', v'⟩ := p
    by_cases h : k' = k
    · simp [setField, lookupField, h]
    · simp [setField, lookupField, h, ih]

theorem lookupField_setField_ne (fs : List (Str × Json)) {k k' : Str} (v : Json)
    (h : k' ≠ k) : lookupField (setField fs k v) k' = lookupField fs k' := by
  have hkk : ¬ k = k' := fun he => h he.symm
  induction fs with
  | nil => simp [setField, lookupField, hkk]
  | cons p rest ih =>
    obtain ⟨k2, v2⟩ := p
    by_cases h2 : k2 = k
    · subst h2
      simp [setField, lookupField, hkk]
    · simp [setField, lookupField, h2, ih]

/-- C8: whenever activation's settings-file update actually rewrites a parsed
settings document, every key other than `env` (in particular the whole
`permissions` map) is preserved with its value, and inside `env` every entry
other than the three credential entries is preserved; and when the update
throws instead (no usable `env` object), activation's fallback leaves the
settings file entirely unchanged. -/
theorem C8_settings_update_frame (token url : Str) (j j' : Json)
    (h : updateClaudeSettings token url (some j) = some j') :
    (∀ k, k ≠ str "env" → jsonGet j' k = jsonGet j k)
    ∧ (∀ ek, ek ≠ str "ANTHROPIC_AUTH_TOKEN" → ek ≠ str "ANTHROPIC_API_KEY" →
        ek ≠ str "ANTHROPIC_BASE_URL" →
        jsonGet2 j' (str "env") ek = jsonGet2 j (str "env") ek)
    ∧ (∀ writeOk cfg st,
        updateClaudeSettings (jsStr cfg.token) (jsStr cfg.url) st.settingsFile = none →
        (setCurrentConfig writeOk cfg st).settingsFile = st.settingsFile) := by
  refine ⟨?_, ?_, ?_⟩
  · intro k hk
    cases j with
    | obj fs =>
      simp only [updateClaudeSettings, readClaudeSettings, Option.getD] at h
      rcases he : lookupField fs (str "env") with _ | env
      · rw [he] at h
        cases h
      · rw [he] at h
        cases env with
        | null => cases h
        | bool b => cases h
        | num n => cases h
        | str s => cases h
        | arr es =>
          cases h
          rfl
        | obj efs =>
          cases h
          simp [jsonGet, lookupField_setField_ne fs _ hk]
    | null => simp [updateClaudeSettings, readClaudeSettings] at h
    | bool b => simp [updateClaudeSettings, readClaudeSettings] at h
    | num n => simp [updateClaudeSettings, readClaudeSettings] at h
    | str s => simp [updateClaudeSettings, readClaudeSettings] at h
    | arr es => simp [updateClaudeSettings, readClaudeSettings] at h
  · intro ek h1 h2 h3
    cases j with
    | obj fs =>
      simp only [updateClaudeSettings, readClaudeSettings, Option.getD] at h
      rcases he : lookupField fs (str "env") with _ | env
      · rw [he] at h
        cases h
      · rw [he] at h
        cases env with
        | null => cases h
        | bool b => cases h
        | num n => cases h
        | str s => cases h
        | arr es =>
          cases h
          rfl
        | obj efs =>
          cases h
          simp only [jsonGet2, jsonGet, lookupField_setField_self, he,
            lookupField_setField_ne _ _ h3, lookupField_setField_ne _ _ h1]
    | null => simp [updateClaudeSettings, readClaudeSettings] at h
    | bool b => simp [updateClaudeSettings, readClaudeSettings] at h
    | num n => simp [updateClaudeSettings, readClaudeSettings] at h
    | str s => simp [updateClaudeSettings, readClaudeSettings] at h
    | arr es => simp [updateClaudeSettings, readClaudeSettings] at h
  · intro writeOk cfg st hnone
    simp [setCurrentConfig, hnone, updateShellConfig]

/-- Witness for C8: rewriting `jC8` preserves the unrelated top-level key
`other` and the unrelated env entry `FOO`. -/
theorem C8_settings_update_frame_witness :
    jsonGet ((updateClaudeSettings (str "tk") (str "uu") (some jC8)).getD .null)
        (str "other") = jsonGet jC8 (str "other")
    ∧ jsonGet2 ((updateClaudeSettings (str "tk") (str "uu") (some jC8)).getD .null)
        (str "env") (str "FOO") = jsonGet2 jC8 (str "env") (str "FOO") :=
  ⟨(C8_settings_update_frame (str "tk") (str "uu") jC8 _ rfl).1 (str "other") (by decide),
   (C8_settings_update_frame (str "tk") (str "uu") jC8 _ rfl).2.1 (str "FOO")
     (by decide) (by decide) (by decide)⟩

/-- C10: the settings-file surface is credential-kind blind.  Changing a
profile's kind never changes the settings file produced by activation; the
update (whenever the document has a usable `env` object, in particular for
the synthesized default) writes the secret into `env.ANTHROPIC_AUTH_TOKEN`
and the base URL into `env.ANTHROPIC_BASE_URL` even for KEY-kind profiles;
it never writes `env.ANTHROPIC_API_KEY` (the entry stays exactly what it was,
so it is never introduced); and the default document has no
`ANTHROPIC_API_KEY` entry. -/
theorem C10_settings_kind_blind (writeOk : Bool) (cfg : Config) (st : State) :
    (∀ t', (setCurrentConfig writeOk { cfg with type := t' } st).settingsFile
      = (setCurrentConfig writeOk cfg st).settingsFile)
    ∧ (∀ efs, jsonGet (readClaudeSettings st.settingsFile) (str "env") = some (.obj efs) →
      ∃ j', updateClaudeSettings (jsStr cfg.token) (jsStr cfg.url) st.settingsFile = some j'
        ∧ jsonGet2 j' (str "env") (str "ANTHROPIC_AUTH_TOKEN")
            = some (.str (jsStr cfg.token))
        ∧ jsonGet2 j' (str "env") (str "ANTHROPIC_BASE_URL") = some (.str (jsStr cfg.url))
        ∧ jsonGet2 j' (str "env") (str "ANTHROPIC_API_KEY")
            = jsonGet2 (readClaudeSettings st.settingsFile) (str "env")
                (str "ANTHROPIC_API_KEY"))
    ∧ jsonGet2 defaultSettings (str "env") (str "ANTHROPIC_API_KEY") = none := by
  refine ⟨?_, ?_, rfl⟩
  · intro t'
    simp only [setCurrentConfig]
    rcases hv : (if writeOk then updateClaudeSettings (jsStr cfg.token) (jsStr cfg.url)
        st.settingsFile else none) with _ | j <;>
      simp [updateShellConfig]
  · intro efs he
    rcases hr : readClaudeSettings st.settingsFile with _ | _ | _ | _ | _ | fs
    · rw [hr] at he; cases he
    · rw [hr] at he; cases he
    · rw [hr] at he; cases he
    · rw [hr] at he; cases he
    · rw [hr] at he; cases he
    · rw [hr] at he
      have hlf : lookupField fs (str "env") = some (.obj efs) := he
      refine ⟨.obj (setField fs (str "env") (.obj (setField
        (setField efs (str "ANTHROPIC_AUTH_TOKEN") (.str (jsStr cfg.token)))
        (str "ANTHROPIC_BASE_URL") (.str (jsStr cfg.url))))), ?_, ?_, ?_, ?_⟩
      · simp only [updateClaudeSettings, hr, hlf]
      · simp only [jsonGet2, jsonGet, lookupField_setField_self,
          lookupField_setField_ne _ _ (by decide : str "ANTHROPIC_AUTH_TOKEN"
            ≠ str "ANTHROPIC_BASE_URL")]
      · simp only [jsonGet2, jsonGet, lookupField_setField_self]
      · simp only [jsonGet2, jsonGet, lookupField_setField_self, hlf,
          lookupField_setField_ne _ _ (by decide : str "ANTHROPIC_API_KEY"
            ≠ str "ANTHROPIC_BASE_URL"),
          lookupField_setField_ne _ _ (by decide : str "ANTHROPIC_API_KEY"
            ≠ str "ANTHROPIC_AUTH_TOKEN")]

/-- Witness for C10 on the default settings document: the secret lands in
`ANTHROPIC_AUTH_TOKEN`, the base URL in `ANTHROPIC_BASE_URL`, and no
`ANTHROPIC_API_KEY` entry appears. -/
theorem C10_settings_kind_blind_witness :
    ∃ j', updateClaudeSettings (jsStr cfg0.token) (jsStr cfg0.url) st0.settingsFile
        = some j'
      ∧ jsonGet2 j' (str "env") (str "ANTHROPIC_AUTH_TOKEN")
          = some (.str (jsStr cfg0.token))
      ∧ jsonGet2 j' (str "env") (str "ANTHROPIC_BASE_URL") = some (.str (jsStr cfg0.url))
      ∧ jsonGet2 j' (str "env") (str "ANTHROPIC_API_KEY")
          = jsonGet2 (readClaudeSettings st0.settingsFile) (str "env")
              (str "ANTHROPIC_API_KEY") :=
  (C10_settings_kind_blind true cfg0 st0).2.1
    [(str "ANTHROPIC_AUTH_TOKEN", .str []),
     (str "ANTHROPIC_BASE_URL", .str []),
     (str "CLAUDE_CODE_MAX_OUTPUT_TOKENS", .str (str "32000")),
     (str "CLAUDE_CODE_DISABLE_NONESSENTIAL_TRAFFIC", .num 1)] rfl

theorem not_infix_of_mem_not_mem {pat s : Str} {c : Char} (hc : c ∈ pat) (hs : c ∉ s) :
    ¬ pat <:+: s :=
  fun h => hs (h.subset hc)

theorem ne_nil_of_not_substring {pat s : Str} (h : ¬ pat <:+: s) : pat ≠ [] :=
  fun he => h (he ▸ nil_isInfixOf)

theorem prefix_append_sep_iff {pat a b : Str} {sep : Char} (hsep : sep ∉ pat) :
    pat <+: a ++ sep :: b ↔ pat <+: a := by
  constructor
  · intro h
    rcases le_or_lt pat.length a.length with hle | hlt
    · have := List.prefix_iff_eq_take.mp h
      rw [List.take_append_eq_append_take, Nat.sub_eq_zero_of_le hle, List.take_zero,
        List.append_nil] at this
      rw [this]
      exact take_isPrefixOf _ _
    · exfalso
      have := List.prefix_iff_eq_take.mp h
      rw [List.take_append_eq_append_take] at this
      have hpos : 0 < pat.length - a.length := Nat.sub_pos_of_lt hlt
      rcases hn : pat.length - a.length with _ | m
      · rw [hn] at hpos
        cases hpos
      · rw [hn, List.take_succ_cons] at this
        exact hsep (this ▸ List.mem_append_right _ (List.mem_cons_self _ _))
  · intro h
    exact h.trans (List.prefix_append a (sep :: b))

theorem infix_iff_exists_prefix_drop {pat s : Str} :
    pat <:+: s ↔ ∃ j, pat <+: s.drop j := by
  constructor
  · rintro ⟨l, r, rfl⟩
    refine ⟨l.length, ?_⟩
    rw [List.append_assoc, List.drop_left]
    exact List.prefix_append pat r
  · rintro ⟨j, hj⟩
    exact hj.isInfix.trans (List.drop_suffix j s).isInfix

theorem infix_append_sep_iff {pat a b : Str} {sep : Char} (hsep : sep ∉ pat) :
    pat <:+: a ++ sep :: b ↔ pat <:+: a ∨ pat <:+: b := by
  constructor
  · intro h
    obtain ⟨j, hj⟩ := infix_iff_exists_prefix_drop.mp h
    rw [List.drop_append_eq_append_drop] at hj
    rcases le_or_lt j a.length with hle | hlt
    · rw [Nat.sub_eq_zero_of_le hle, List.drop_zero] at hj
      rw [prefix_append_sep_iff hsep] at hj
      exact Or.inl (infix_iff_exists_prefix_drop.mpr ⟨j, hj⟩)
    · have hda : a.drop j = [] := List.drop_eq_nil_of_le (Nat.le_of_lt hlt)
      rw [hda, List.nil_append] at hj
      have hpos : 0 < j - a.length := Nat.sub_pos_of_lt hlt
      rcases hn : j - a.length with _ | m
      · rw [hn] at hpos
        cases hpos
      · rw [hn, List.drop_succ_cons] at hj
        exact Or.inr (infix_iff_exists_prefix_drop.mpr ⟨m, hj⟩)
  · intro h
    rcases h with h | h
    · exact h.trans (List.prefix_append a (sep :: b)).isInfix
    · exact h.trans ((List.suffix_cons sep b).trans (List.suffix_append a (sep :: b))).isInfix

theorem occCount_append_sep {pat : Str} (hne : pat ≠ []) {sep : Char} (hsep : sep ∉ pat)
    (a b : Str) : occCount pat (a ++ sep :: b) = occCount pat a + occCount pat b := by
  induction a with
  | nil =>
    have hnp : pat.isPrefixOf (sep :: b) = false := by
      rcases pat with _ | ⟨p, ps⟩
      · exact absurd rfl hne
      · rcases hp : (p :: ps).isPrefixOf (sep :: b) with _ | _
        · rfl
        · exfalso
          have := isPrefixOf_eq_iff.mp hp
          obtain ⟨tl, htl⟩ := this
          rw [List.cons_append] at htl
          have : p = sep := (List.cons.injEq _ _ _ _).mp htl |>.1
          exact hsep (this ▸ List.mem_cons_self p ps)
    have hpn : pat.isPrefixOf ([] : Str) = false := by
      rcases hp : pat.isPrefixOf ([] : Str) with _ | _
      · rfl
      · exact absurd (isPrefixOf_eq_iff.mp hp |> List.prefix_nil.mp) hne
    simp [occCount, hnp, hpn]
  | cons x a ih =>
    have hpref : pat.isPrefixOf (x :: (a ++ sep :: b)) = pat.isPrefixOf (x :: a) := by
      rcases hp : pat.isPrefixOf (x :: a) with _ | _
      · rcases hq : pat.isPrefixOf (x :: (a ++ sep :: b)) with _ | _
        · rfl
        · exfalso
          have hq' := isPrefixOf_eq_iff.mp hq
          rw [show x :: (a ++ sep :: b) = (x :: a) ++ sep :: b from rfl,
            prefix_append_sep_iff hsep] at hq'
          rw [← isPrefixOf_eq_iff] at hq'
          rw [hq'] at hp
          cases hp
      · have hp' := isPrefixOf_eq_iff.mp hp
        have : pat <+: (x :: a) ++ sep :: b := hp'.trans (List.prefix_append _ _)
        rw [← isPrefixOf_eq_iff] at this
        rw [show x :: (a ++ sep :: b) = (x :: a) ++ sep :: b from rfl, this]
    show (if pat.isPrefixOf (x :: (a ++ sep :: b)) then 1 else 0) + occCount pat (a ++ sep :: b)
      = ((if pat.isPrefixOf (x :: a) then 1 else 0) + occCount pat a) + occCount pat b
    rw [hpref, ih]
    omega

theorem occCount_eq_zero {pat s : Str} (h : ¬ pat <:+: s) : occCount pat s = 0 := by
  have hne : pat ≠ [] := ne_nil_of_not_substring h
  induction s with
  | nil =>
    simp only [occCount]
    rw [if_neg]
    intro hp
    exact hne (isPrefixOf_eq_iff.mp hp |> List.prefix_nil.mp)
  | cons c rest ih =>
    have h1 : ¬ pat <:+: rest := fun hr => h (List.infix_cons hr)
    have h2 : pat.isPrefixOf (c :: rest) = false := by
      rcases hp : pat.isPrefixOf (c :: rest) with _ | _
      · rfl
      · exact absurd (isPrefixOf_eq_iff.mp hp).isInfix h
    simp [occCount, h2, ih h1]

theorem idxOf?_eq_none {pat s : Str} (h : ¬ pat <:+: s) : idxOf? pat s = none := by
  have hne : pat ≠ [] := ne_nil_of_not_substring h
  induction s with
  | nil =>
    simp only [idxOf?]
    rw [if_neg]
    intro hp
    exact hne (isPrefixOf_eq_iff.mp hp |> List.prefix_nil.mp)
  | cons c rest ih =>
    have h1 : ¬ pat <:+: rest := fun hr => h (List.infix_cons hr)
    have h2 : pat.isPrefixOf (c :: rest) = false := by
      rcases hp : pat.isPrefixOf (c :: rest) with _ | _
      · rfl
      · exact absurd (isPrefixOf_eq_iff.mp hp).isInfix h
    simp [idxOf?, h2, ih h1]

theorem idxOf?_sep_append {pat A B : Str} {sep : Char} (hsep : sep ∉ pat)
    (hA : ¬ pat <:+: A) (hB : pat <+: B) :
    idxOf? pat (A ++ sep :: B) = some (A.length + 1) := by
  have hne : pat ≠ [] := ne_nil_of_not_substring hA
  induction A with
  | nil =>
    have hnp : pat.isPrefixOf (sep :: B) = false := by
      rcases pat with _ | ⟨p, ps⟩
      · exact absurd rfl hne
      · rcases hp : (p :: ps).isPrefixOf (sep :: B) with _ | _
        · rfl
        · exfalso
          obtain ⟨tl, htl⟩ := isPrefixOf_eq_iff.mp hp
          rw [List.cons_append] at htl
          have : p = sep := (List.cons.injEq _ _ _ _).mp htl |>.1
          exact hsep (this ▸ List.mem_cons_self p ps)
    have hB0 : idxOf? pat B = some 0 := by
      rcases B with _ | ⟨c, rest⟩
      · exact absurd (List.prefix_nil.mp hB) hne
      · simp only [idxOf?, isPrefixOf_eq_iff.mpr hB, if_true]
    simp [idxOf?, hnp, hB0]
  | cons x A ih =>
    have hA' : ¬ pat <:+: A := fun hr => hA (List.infix_cons hr)
    have hnp : pat.isPrefixOf (x :: (A ++ sep :: B)) = false := by
      rcases hp : pat.isPrefixOf (x :: (A ++ sep :: B)) with _ | _
      · rfl
      · exfalso
        have hp' := isPrefixOf_eq_iff.mp hp
        rw [show x :: (A ++ sep :: B) = (x :: A) ++ sep :: B from rfl,
          prefix_append_sep_iff hsep] at hp'
        exact hA hp'.isInfix
    show idxOf? pat (x :: (A ++ sep :: B)) = some (A.length + 1 + 1)
    simp [idxOf?, hnp, ih hA']

theorem not_infix_append_newline {pat s : Str} (hnl : '\n' ∉ pat) (h : ¬ pat <:+: s) :
    ¬ pat <:+: s ++ ['\n'] := by
  intro hx
  rw [show s ++ ['\n'] = s ++ '\n' :: ([] : Str) from rfl, infix_append_sep_iff hnl] at hx
  rcases hx with hx | hx
  · exact h hx
  · exact ne_nil_of_not_substring h (List.infix_nil.mp hx)

theorem not_infix_padContent {pat content : Str} (hnl : '\n' ∉ pat)
    (h : ¬ pat <:+: content) : ¬ pat <:+: padContent content := by
  unfold padContent
  split_ifs with h1 h2
  · exact h
  · exact h
  · exact not_infix_append_newline hnl h

theorem spliceEnvBlock_props (l1 l2 content : Str)
    (h1s : ¬ envVarStart <:+: l1) (h1e : ¬ envVarEnd <:+: l1)
    (h2s : ¬ envVarStart <:+: l2) (h2e : ¬ envVarEnd <:+: l2)
    (hcs : ¬ envVarStart <:+: content) (hce : ¬ envVarEnd <:+: content) :
    spliceEnvBlock (sentinelBlock l1 l2) (spliceEnvBlock (sentinelBlock l1 l2) content)
      = spliceEnvBlock (sentinelBlock l1 l2) content
    ∧ occCount envVarStart (spliceEnvBlock (sentinelBlock l1 l2) content) = 1
    ∧ occCount envVarEnd (spliceEnvBlock (sentinelBlock l1 l2) content) = 1 := by
  have hnlS : '\n' ∉ envVarStart := by decide
  have hnlE : '\n' ∉ envVarEnd := by decide
  have hneS : envVarStart ≠ [] := by decide
  have hneE : envVarEnd ≠ [] := by decide
  have hc1s : ¬ envVarStart <:+: padContent content := not_infix_padContent hnlS hcs
  have hc1e : ¬ envVarEnd <:+: padContent content := not_infix_padContent hnlE hce
  have hBexp : sentinelBlock l1 l2
      = envVarStart ++ '\n' :: (l1 ++ '\n' :: (l2 ++ '\n' :: envVarEnd)) := by
    simp [sentinelBlock, str_newline_eq, List.append_assoc]
  have happ : spliceEnvBlock (sentinelBlock l1 l2) content
      = padContent content ++ '\n' :: (envVarStart ++ '\n' :: (l1 ++ '\n' ::
        (l2 ++ '\n' :: (envVarEnd ++ ['\n'])))) := by
    simp only [spliceEnvBlock, idxOf?_eq_none hcs, idxOf?_eq_none hce]
    rw [hBexp]
    simp [str_newline_eq, List.append_assoc]
  have hoccS : occCount envVarStart (spliceEnvBlock (sentinelBlock l1 l2) content) = 1 := by
    rw [happ, occCount_append_sep hneS hnlS, occCount_append_sep hneS hnlS,
      occCount_append_sep hneS hnlS, occCount_append_sep hneS hnlS,
      show envVarEnd ++ ['\n'] = envVarEnd ++ '\n' :: ([] : Str) from rfl,
      occCount_append_sep hneS hnlS,
      occCount_eq_zero hc1s, occCount_eq_zero h1s, occCount_eq_zero h2s,
      show occCount envVarStart envVarStart = 1 from by decide,
      show occCount envVarStart envVarEnd = 0 from by decide,
      show occCount envVarStart ([] : Str) = 0 from by decide]
  have hoccE : occCount envVarEnd (spliceEnvBlock (sentinelBlock l1 l2) content) = 1 := by
    rw [happ, occCount_append_sep hneE hnlE, occCount_append_sep hneE hnlE,
      occCount_append_sep hneE hnlE, occCount_append_sep hneE hnlE,
      show envVarEnd ++ ['\n'] = envVarEnd ++ '\n' :: ([] : Str) from rfl,
      occCount_append_sep hneE hnlE,
      occCount_eq_zero hc1e, occCount_eq_zero h1e, occCount_eq_zero h2e,
      show occCount envVarEnd envVarStart = 0 from by decide,
      show occCount envVarEnd envVarEnd = 1 from by decide,
      show occCount envVarEnd ([] : Str) = 0 from by decide]
  refine ⟨?_, hoccS, hoccE⟩
  have happ' : spliceEnvBlock (sentinelBlock l1 l2) content
      = (padContent content ++ '\n' :: (envVarStart ++ '\n' :: (l1 ++ '\n' :: l2)))
        ++ '\n' :: (envVarEnd ++ ['\n']) := by
    rw [happ]
    simp [List.append_assoc]
  have hidx2s : idxOf? envVarStart (spliceEnvBlock (sentinelBlock l1 l2) content)
      = some ((padContent content).length + 1) := by
    rw [happ]
    exact idxOf?_sep_append hnlS hc1s (List.prefix_append _ _)
  have hA'e : ¬ envVarEnd <:+:
      (padContent content ++ '\n' :: (envVarStart ++ '\n' :: (l1 ++ '\n' :: l2))) := by
    intro hx
    rw [infix_append_sep_iff hnlE] at hx
    rcases hx with hx | hx
    · exact hc1e hx
    · rw [infix_append_sep_iff hnlE] at hx
      rcases hx with hx | hx
      · exact (by decide : ¬ envVarEnd <:+: envVarStart) hx
      · rw [infix_append_sep_iff hnlE] at hx
        rcases hx with hx | hx
        · exact h1e hx
        · exact h2e hx
  have hidx2e : idxOf? envVarEnd (spliceEnvBlock (sentinelBlock l1 l2) content)
      = some ((padContent content ++ '\n' :: (envVarStart ++ '\n' ::
          (l1 ++ '\n' :: l2))).length + 1) := by
    rw [happ']
    exact idxOf?_sep_append hnlE hA'e (List.prefix_append _ _)
  generalize hq : spliceEnvBlock (sentinelBlock l1 l2) content = q
    at hidx2s hidx2e happ happ' ⊢
  have htake : q.take ((padContent content).length + 1) = padContent content ++ ['\n'] := by
    rw [happ, show padContent content ++ '\n' :: (envVarStart ++ '\n' :: (l1 ++ '\n' ::
        (l2 ++ '\n' :: (envVarEnd ++ ['\n']))))
      = (padContent content ++ ['\n']) ++ (envVarStart ++ '\n' :: (l1 ++ '\n' ::
        (l2 ++ '\n' :: (envVarEnd ++ ['\n'])))) from by simp]
    exact List.take_left' (by simp)
  have hdrop : q.drop ((padContent content ++ '\n' :: (envVarStart ++ '\n' ::
      (l1 ++ '\n' :: l2))).length + 1 + envVarEnd.length) = ['\n'] := by
    rw [happ', show (padContent content ++ '\n' :: (envVarStart ++ '\n' ::
        (l1 ++ '\n' :: l2))) ++ '\n' :: (envVarEnd ++ ['\n'])
      = ((padContent content ++ '\n' :: (envVarStart ++ '\n' :: (l1 ++ '\n' :: l2)))
        ++ '\n' :: envVarEnd) ++ ['\n'] from by simp]
    refine List.drop_left' ?_
    simp
    omega
  simp only [spliceEnvBlock, hidx2s, hidx2e]
  rw [htake, hdrop, happ, hBexp]
  simp [List.append_assoc]

theorem not_infix_sep_wrapped {pat pre v : Str} (hq : '"' ∉ pat) (hne : pat ≠ [])
    (hpre : ¬ pat <:+: pre) (hv : ¬ pat <:+: v) :
    ¬ pat <:+: (pre ++ ['"']) ++ v ++ ['"'] := by
  rw [show (pre ++ ['"']) ++ v ++ ['"'] = pre ++ '"' :: (v ++ '"' :: []) from by
    simp [List.append_assoc]]
  intro hx
  rw [infix_append_sep_iff hq] at hx
  rcases hx with hx | hx
  · exact hpre hx
  · rw [infix_append_sep_iff hq] at hx
    rcases hx with hx | hx
    · exact hv hx
    · exact hne (List.infix_nil.mp hx)

set_option maxRecDepth 20000 in
/-- C9 counterexample: starting from a file that contains a stray end marker
only, two successive updates do not agree with one, and the twice-updated
file contains two begin markers (two sentinel blocks), refuting the claim's
"for every prior file content". -/
theorem C9_counterexample :
    updateUnixShellConfig cfg0 (updateUnixShellConfig cfg0 envVarEnd)
      ≠ updateUnixShellConfig cfg0 envVarEnd
    ∧ occCount envVarStart
        (updateUnixShellConfig cfg0 (updateUnixShellConfig cfg0 envVarEnd)) = 2
    ∧ (2 : Nat) ≠ 1 := by decide

/-- C9 (amended): the shell-startup-file edit is idempotent and produces
exactly one sentinel block, for every profile whose URL and secret do not
contain a sentinel marker and for every prior file content that does not
already contain a stray sentinel marker (in particular any marker-free file,
and by the same token the output of a previous update).  This holds for both
the Unix and the PowerShell variants. -/
theorem C9_shell_update_idempotent (cfg : Config) (content : Str)
    (hus : ¬ envVarStart <:+: jsStr cfg.url) (hue : ¬ envVarEnd <:+: jsStr cfg.url)
    (hts : ¬ envVarStart <:+: jsStr cfg.token) (hte : ¬ envVarEnd <:+: jsStr cfg.token)
    (hcs : ¬ envVarStart <:+: content) (hce : ¬ envVarEnd <:+: content) :
    (updateUnixShellConfig cfg (updateUnixShellConfig cfg content)
        = updateUnixShellConfig cfg content
      ∧ occCount envVarStart (updateUnixShellConfig cfg content) = 1
      ∧ occCount envVarEnd (updateUnixShellConfig cfg content) = 1)
    ∧ (updateWindowsPowerShellConfig cfg (updateWindowsPowerShellConfig cfg content)
        = updateWindowsPowerShellConfig cfg content
      ∧ occCount envVarStart (updateWindowsPowerShellConfig cfg content) = 1
      ∧ occCount envVarEnd (updateWindowsPowerShellConfig cfg content) = 1) := by
  constructor
  · simp only [updateUnixShellConfig, unixEnvBlock]
    have hL1s : ¬ envVarStart <:+:
        str "export ANTHROPIC_BASE_URL=\x22" ++ jsStr cfg.url ++ str "\x22" := by
      rw [show (str "export ANTHROPIC_BASE_URL=\x22" : Str)
          = str "export ANTHROPIC_BASE_URL=" ++ ['"'] from by decide,
        show (str "\x22" : Str) = ['"'] from rfl]
      exact not_infix_sep_wrapped (by decide) (by decide) (by decide) hus
    have hL1e : ¬ envVarEnd <:+:
        str "export ANTHROPIC_BASE_URL=\x22" ++ jsStr cfg.url ++ str "\x22" := by
      rw [show (str "export ANTHROPIC_BASE_URL=\x22" : Str)
          = str "export ANTHROPIC_BASE_URL=" ++ ['"'] from by decide,
        show (str "\x22" : Str) = ['"'] from rfl]
      exact not_infix_sep_wrapped (by decide) (by decide) (by decide) hue
    have hL2s : ¬ envVarStart <:+:
        str "export " ++ (if cfg.type = str "KEY" then str "ANTHROPIC_API_KEY"
          else str "ANTHROPIC_AUTH_TOKEN") ++ str "=\x22" ++ jsStr cfg.token
          ++ str "\x22" := by
      by_cases hk : cfg.type = str "KEY"
      · rw [if_pos hk,
          show str "export " ++ str "ANTHROPIC_API_KEY" ++ str "=\x22"
            = str "export ANTHROPIC_API_KEY=" ++ ['"'] from by decide,
          show (str "\x22" : Str) = ['"'] from rfl]
        exact not_infix_sep_wrapped (by decide) (by decide) (by decide) hts
      · rw [if_neg hk,
          show str "export " ++ str "ANTHROPIC_AUTH_TOKEN" ++ str "=\x22"
            = str "export ANTHROPIC_AUTH_TOKEN=" ++ ['"'] from by decide,
          show (str "\x22" : Str) = ['"'] from rfl]
        exact not_infix_sep_wrapped (by decide) (by decide) (by decide) hts
    have hL2e : ¬ envVarEnd <:+:
        str "export " ++ (if cfg.type = str "KEY" then str "ANTHROPIC_API_KEY"
          else str "ANTHROPIC_AUTH_TOKEN") ++ str "=\x22" ++ jsStr cfg.token
          ++ str "\x22" := by
      by_cases hk : cfg.type = str "KEY"
      · rw [if_pos hk,
          show str "export " ++ str "ANTHROPIC_API_KEY" ++ str "=\x22"
            = str "export ANTHROPIC_API_KEY=" ++ ['"'] from by decide,
          show (str "\x22" : Str) = ['"'] from rfl]
        exact not_infix_sep_wrapped (by decide) (by decide) (by decide) hte
      · rw [if_neg hk,
          show str "export " ++ str "ANTHROPIC_AUTH_TOKEN" ++ str "=\x22"
            = str "export ANTHROPIC_AUTH_TOKEN=" ++ ['"'] from by decide,
          show (str "\x22" : Str) = ['"'] from rfl]
        exact not_infix_sep_wrapped (by decide) (by decide) (by decide) hte
    exact spliceEnvBlock_props _ _ _ hL1s hL1e hL2s hL2e hcs hce
  · simp only [updateWindowsPowerShellConfig, psEnvBlock]
    have hL1s : ¬ envVarStart <:+:
        str "$env:ANTHROPIC_BASE_URL = \x22" ++ jsStr cfg.url ++ str "\x22" := by
      rw [show (str "$env:ANTHROPIC_BASE_URL = \x22" : Str)
          = str "$env:ANTHROPIC_BASE_URL = " ++ ['"'] from by decide,
        show (str "\x22" : Str) = ['"'] from rfl]
      exact not_infix_sep_wrapped (by decide) (by decide) (by decide) hus
    have hL1e : ¬ envVarEnd <:+:
        str "$env:ANTHROPIC_BASE_URL = \x22" ++ jsStr cfg.url ++ str "\x22" := by
      rw [show (str "$env:ANTHROPIC_BASE_URL = \x22" : Str)
          = str "$env:ANTHROPIC_BASE_URL = " ++ ['"'] from by decide,
        show (str "\x22" : Str) = ['"'] from rfl]
      exact not_infix_sep_wrapped (by decide) (by decide) (by decide) hue
    have hL2s : ¬ envVarStart <:+:
        str "$env:" ++ (if cfg.type = str "KEY" then str "ANTHROPIC_API_KEY"
          else str "ANTHROPIC_AUTH_TOKEN") ++ str " = \x22" ++ jsStr cfg.token
          ++ str "\x22" := by
      by_cases hk : cfg.type = str "KEY"
      · rw [if_pos hk,
          show str "$env:" ++ str "ANTHROPIC_API_KEY" ++ str " = \x22"
            = str "$env:ANTHROPIC_API_KEY = " ++ ['"'] from by decide,
          show (str "\x22" : Str) = ['"'] from rfl]
        exact not_infix_sep_wrapped (by decide) (by decide) (by decide) hts
      · rw [if_neg hk,
          show str "$env:" ++ str "ANTHROPIC_AUTH_TOKEN" ++ str " = \x22"
            = str "$env:ANTHROPIC_AUTH_TOKEN = " ++ ['"'] from by decide,
          show (str "\x22" : Str) = ['"'] from rfl]
        exact not_infix_sep_wrapped (by decide) (by decide) (by decide) hts
    have hL2e : ¬ envVarEnd <:+:
        str "$env:" ++ (if cfg.type = str "KEY" then str "ANTHROPIC_API_KEY"
          else str "ANTHROPIC_AUTH_TOKEN") ++ str " = \x22" ++ jsStr cfg.token
          ++ str "\x22" := by
      by_cases hk : cfg.type = str "KEY"
      · rw [if_pos hk,
          show str "$env:" ++ str "ANTHROPIC_API_KEY" ++ str " = \x22"
            = str "$env:ANTHROPIC_API_KEY = " ++ ['"'] from by decide,
          show (str "\x22" : Str) = ['"'] from rfl]
        exact not_infix_sep_wrapped (by decide) (by decide) (by decide) hte
      · rw [if_neg hk,
          show str "$env:" ++ str "ANTHROPIC_AUTH_TOKEN" ++ str " = \x22"
            = str "$env:ANTHROPIC_AUTH_TOKEN = " ++ ['"'] from by decide,
          show (str "\x22" : Str) = ['"'] from rfl]
        exact not_infix_sep_wrapped (by decide) (by decide) (by decide) hte
    exact spliceEnvBlock_props _ _ _ hL1s hL1e hL2s hL2e hcs hce

/-- Witness for the amended C9 at a concrete profile and marker-free file. -/
theorem C9_shell_update_idempotent_witness :
    updateUnixShellConfig cfg0 (updateUnixShellConfig cfg0 (str "PATH=1"))
      = updateUnixShellConfig cfg0 (str "PATH=1")
    ∧ occCount envVarStart (updateUnixShellConfig cfg0 (str "PATH=1")) = 1 :=
  ⟨(C9_shell_update_idempotent cfg0 (str "PATH=1") (by decide) (by decide) (by decide)
      (by decide) (by decide) (by decide)).1.1,
   (C9_shell_update_idempotent cfg0 (str "PATH=1") (by decide) (by decide) (by decide)
      (by decide) (by decide) (by decide)).1.2.1⟩

end ACM
